import Mathlib

/-!
Shallow embedding of the mapsme/subways pipeline
(`subway_structure.py`, `processors/mapsme.py`) used to settle the
specification claims.  OSM composite ids are modelled as a kind plus a
numeric id (the source builds them as a one-letter kind marker followed
by the decimal id); coordinates are rationals; the floating-point
geographic distance function is a parameter of every definition that
consumes it in the source.
-/

namespace Subways

/-- Kinds of OSM elements (node, way, relation). -/
inductive OsmKind
  | node
  | way
  | relation
deriving DecidableEq, Repr

/-- Numeric type tag used by `uid` in `processors/mapsme.py`
(`OSM_TYPES`): node 0, way 2, relation 3. -/
def OsmKind.tag : OsmKind → ℕ
  | .node => 0
  | .way => 2
  | .relation => 3

/-- Composite element id: the source encodes it as kind-letter plus the
decimal numeric id (`el_id` in `subway_structure.py`). -/
structure ElId where
  kind : OsmKind
  num : ℕ
deriving DecidableEq, Repr

/-- The `uid` function of `processors/mapsme.py` with `typ=None`:
shift the numeric id left two bits, add the type tag, shift left one. -/
def uid (e : ElId) : ℕ := ((e.num <<< 2) + e.kind.tag) <<< 1

/-- The `uid` function of `processors/mapsme.py` when a `typ` argument
is given: the type tag is not added; a mismatching kind raises
(modelled as `none`). -/
def uidTyped (e : ElId) (typ : OsmKind) : Option ℕ :=
  if e.kind = typ then some (e.num <<< 1) else none

theorem uid_eq_mul (e : ElId) : uid e = (e.num * 4 + e.kind.tag) * 2 := by
  simp [uid, Nat.shiftLeft_eq]

theorem OsmKind.tag_lt_four (k : OsmKind) : k.tag < 4 := by
  cases k <;> simp [OsmKind.tag]

theorem OsmKind.tag_injective : Function.Injective OsmKind.tag := by
  intro a b h
  cases a <;> cases b <;> simp_all [OsmKind.tag]

theorem uid_injective : Function.Injective uid := by
  intro a b h
  rw [uid_eq_mul, uid_eq_mul] at h
  have h4 : a.num * 4 + a.kind.tag = b.num * 4 + b.kind.tag := by omega
  have ha := a.kind.tag_lt_four
  have hb := b.kind.tag_lt_four
  have htag : a.kind.tag = b.kind.tag := by omega
  have hkind : a.kind = b.kind := OsmKind.tag_injective htag
  have hnum : a.num = b.num := by omega
  cases a; cases b
  simp_all

/-- C1: each composite id is exported as `((numeric_id << 2) + type_tag) << 1`
with tag 0 for nodes, 2 for ways, 3 for relations; the computation is a
pure function of the composite id (hence deterministic) and no two
distinct composite ids collide. -/
theorem C1_uid_encoding_and_injectivity :
    (∀ e : ElId, uid e = ((e.num <<< 2) + e.kind.tag) <<< 1)
    ∧ OsmKind.tag .node = 0 ∧ OsmKind.tag .way = 2 ∧ OsmKind.tag .relation = 3
    ∧ (∀ a b : ElId, a ≠ b → uid a ≠ uid b) := by
  refine ⟨fun _ => rfl, rfl, rfl, rfl, ?_⟩
  intro a b hne h
  exact hne (uid_injective h)

/-- C1 witness: two concrete distinct composite ids receive distinct uids. -/
theorem C1_uid_encoding_and_injectivity_witness :
    uid ⟨OsmKind.relation, 1⟩ ≠ uid ⟨OsmKind.node, 1⟩ :=
  C1_uid_encoding_and_injectivity.2.2.2.2 ⟨OsmKind.relation, 1⟩ ⟨OsmKind.node, 1⟩
    (by decide)

/-- Geographic point as `(lon, lat)`, the tuple order used throughout
the source. -/
def Point : Type := ℚ × ℚ

instance : DecidableEq Point := by
  unfold Point
  infer_instance

instance : Inhabited Point := ⟨((0 : ℚ), (0 : ℚ))⟩

/-- Python 3 `round` to an integer: nearest integer, ties to even. -/
def pyRound (q : ℚ) : ℤ :=
  if q - ⌊q⌋ < 1/2 then ⌊q⌋
  else if 1/2 < q - ⌊q⌋ then ⌊q⌋ + 1
  else if Even ⌊q⌋ then ⌊q⌋ else ⌊q⌋ + 1

theorem pyRound_le (q : ℚ) : pyRound q ≤ ⌊q⌋ + 1 := by
  unfold pyRound
  split_ifs <;> omega

theorem le_pyRound (q : ℚ) : ⌊q⌋ ≤ pyRound q := by
  unfold pyRound
  split_ifs <;> omega

theorem pyRound_mono {q r : ℚ} (h : q ≤ r) : pyRound q ≤ pyRound r := by
  rcases lt_or_eq_of_le (Int.floor_le_floor h) with hf | hf
  · calc pyRound q ≤ ⌊q⌋ + 1 := pyRound_le q
      _ ≤ ⌊r⌋ := by omega
      _ ≤ pyRound r := le_pyRound r
  · unfold pyRound
    rw [hf]
    have hqr : q - ⌊r⌋ ≤ r - ⌊r⌋ := by
      have : (⌊r⌋ : ℚ) = ⌊r⌋ := rfl
      linarith
    split_ifs with h1 h2 h3 h4 h5 h6 h7 <;> first
      | omega
      | (exfalso; linarith)

theorem pyRound_zero : pyRound 0 = 0 := by
  norm_num [pyRound]

theorem pyRound_nonneg {q : ℚ} (h : 0 ≤ q) : 0 ≤ pyRound q := by
  have := pyRound_mono h
  rw [pyRound_zero] at this
  exact this

/-! ### City validation count tolerances (`City.validate`) -/

/-- Constant `ALLOWED_STATIONS_MISMATCH` of `subway_structure.py`. -/
def ALLOWED_STATIONS_MISMATCH : ℚ := 0.02

/-- Constant `ALLOWED_TRANSFERS_MISMATCH` of `subway_structure.py`. -/
def ALLOWED_TRANSFERS_MISMATCH : ℚ := 0.07

/-- Outcome of one `error_if` site in `City.validate`; `crash` models
the `ZeroDivisionError` Python would raise. -/
inductive CheckResult
  | crash
  | nothing
  | warning
  | error
deriving DecidableEq, Repr

/-- Station-count comparison of `City.validate` (non-overground branch):
when found differs from expected, `error_if` records a warning when
`0 <= (expected - found)/expected <= ALLOWED_STATIONS_MISMATCH` and an
error otherwise; expected `0` would divide by zero in the source. -/
def stationCountCheck (numStations found : ℤ) : CheckResult :=
  if found = numStations then .nothing
  else if numStations = 0 then .crash
  else if 0 ≤ ((numStations - found : ℚ) / numStations)
      ∧ ((numStations - found : ℚ) / numStations) ≤ ALLOWED_STATIONS_MISMATCH
    then .warning else .error

/-- Interchange-count comparison of `City.validate` (non-overground
branch): when found differs from expected, `error_if` records an error
when expected is non-zero and `(expected - found)/expected` exceeds
`ALLOWED_TRANSFERS_MISMATCH`, and a warning otherwise. -/
def interchangeCountCheck (numInterchanges found : ℤ) : CheckResult :=
  if found = numInterchanges then .nothing
  else if numInterchanges ≠ 0
      ∧ ¬(((numInterchanges - found : ℚ) / numInterchanges) ≤ ALLOWED_TRANSFERS_MISMATCH)
    then .error else .warning

/-- C6: for a non-overground city with a positive expected station count
and a non-negative expected interchange count (counts found are
non-negative), a differing station count yields a warning exactly when
the undercount is between 0 and 2 percent of the expected count (else an
error), and a differing interchange count yields a warning exactly when
the undercount is at most 7 percent of the expected count (else an
error). -/
theorem C6_count_mismatch_tolerances (ns f ni g : ℤ)
    (hns : 0 < ns) (hni : 0 ≤ ni) (hf : 0 ≤ f) (hg : 0 ≤ g) :
    (f ≠ ns →
      (stationCountCheck ns f = .warning ↔
        0 ≤ ns - f ∧ (ns - f : ℚ) ≤ ALLOWED_STATIONS_MISMATCH * ns)
      ∧ (stationCountCheck ns f = .error ↔
        ¬(0 ≤ ns - f ∧ (ns - f : ℚ) ≤ ALLOWED_STATIONS_MISMATCH * ns)))
    ∧ (g ≠ ni →
      (interchangeCountCheck ni g = .warning ↔
        (ni - g : ℚ) ≤ ALLOWED_TRANSFERS_MISMATCH * ni)
      ∧ (interchangeCountCheck ni g = .error ↔
        ¬((ni - g : ℚ) ≤ ALLOWED_TRANSFERS_MISMATCH * ni))) := by
  have hnsq : (0 : ℚ) < (ns : ℚ) := by exact_mod_cast hns
  constructor
  · intro hne
    have key : (0 ≤ ((ns - f : ℚ) / ns) ∧ ((ns - f : ℚ) / ns) ≤ ALLOWED_STATIONS_MISMATCH)
        ↔ (0 ≤ ns - f ∧ (ns - f : ℚ) ≤ ALLOWED_STATIONS_MISMATCH * ns) := by
      rw [le_div_iff₀ hnsq, div_le_iff₀ hnsq]
      constructor
      · rintro ⟨h1, h2⟩
        refine ⟨?_, h2⟩
        have : (0 : ℚ) ≤ (ns : ℚ) - (f : ℚ) := by linarith [h1]
        have : (f : ℚ) ≤ (ns : ℚ) := by linarith
        exact_mod_cast by exact_mod_cast sub_nonneg.mpr this
      · rintro ⟨h1, h2⟩
        have h1q : (0 : ℚ) ≤ (ns : ℚ) - (f : ℚ) := by exact_mod_cast h1
        exact ⟨by linarith, h2⟩
    constructor
    · rw [stationCountCheck]
      split_ifs with h0 h1 h2
      · exact absurd h0 hne
      · omega
      · simpa using key.mp h2
      · constructor
        · intro hcon
          cases hcon
        · intro hrhs
          exact absurd (key.mpr hrhs) h2
    · rw [stationCountCheck]
      split_ifs with h0 h1 h2
      · exact absurd h0 hne
      · omega
      · constructor
        · intro hcon
          cases hcon
        · intro hrhs
          exact absurd (key.mp h2) hrhs
      · simp only [true_iff]
        intro hrhs
        exact h2 (key.mpr hrhs)
  · intro hne
    have key : (ni ≠ 0 ∧ ¬(((ni - g : ℚ) / ni) ≤ ALLOWED_TRANSFERS_MISMATCH))
        ↔ ¬((ni - g : ℚ) ≤ ALLOWED_TRANSFERS_MISMATCH * ni) := by
      rcases eq_or_lt_of_le hni with h0 | h0
    -- expected count zero: the source records a warning; the undercount
    -- is then non-positive, hence within tolerance
      · constructor
        · rintro ⟨hz, _⟩
          exact absurd h0.symm hz
        · intro hcon
          exfalso
          apply hcon
          rw [← h0]
          push_cast
          have hgq : (0 : ℚ) ≤ (g : ℚ) := by exact_mod_cast hg
          simp [ALLOWED_TRANSFERS_MISMATCH]
          linarith
      · have hniq : (0 : ℚ) < (ni : ℚ) := by exact_mod_cast h0
        rw [div_le_iff₀ hniq]
        constructor
        · rintro ⟨_, h⟩
          exact h
        · intro h
          exact ⟨by omega, h⟩
    constructor
    · rw [interchangeCountCheck]
      split_ifs with h0 h1
      · exact absurd h0 hne
      · constructor
        · intro hcon
          cases hcon
        · intro hrhs
          exact absurd (key.mp h1) (not_not.mpr hrhs)
      · simp only [true_iff]
        by_contra hrhs
        exact h1 (key.mpr hrhs)
    · rw [interchangeCountCheck]
      split_ifs with h0 h1
      · exact absurd h0 hne
      · simpa using key.mp h1
      · constructor
        · intro hcon
          cases hcon
        · intro hrhs
          exact h1 (key.mpr hrhs)

/-- C6 witness: with 100 expected and 99 found stations the source
records a warning, and with 10 expected and 8 found interchanges it
records an error. -/
theorem C6_count_mismatch_tolerances_witness :
    stationCountCheck 100 99 = .warning ∧ interchangeCountCheck 10 8 = .error := by
  constructor
  · exact ((C6_count_mismatch_tolerances 100 99 10 8 (by decide) (by decide)
      (by decide) (by decide)).1 (by decide)).1.mpr (by norm_num [ALLOWED_STATIONS_MISMATCH])
  · exact ((C6_count_mismatch_tolerances 100 99 10 8 (by decide) (by decide)
      (by decide) (by decide)).2 (by decide)).2.mpr (by norm_num [ALLOWED_TRANSFERS_MISMATCH])

/-! ### Transfer export (`process` and `MapsmeCache.provide_transfers`) -/

/-- View of a `StopArea` as consumed by the transfer loop of `process`
in `processors/mapsme.py`: its composite id and centre. -/
structure StopAreaT where
  id : ElId
  center : Point
deriving DecidableEq

/-- Constant `KMPH_TO_MPS` of `processors/mapsme.py`. -/
def KMPH_TO_MPS : ℚ := 1 / 3.6

/-- Constant `SPEED_ON_TRANSFER` of `processors/mapsme.py`. -/
def SPEED_ON_TRANSFER : ℚ := 3.5 * KMPH_TO_MPS

/-- Constant `TRANSFER_PENALTY` of `processors/mapsme.py`, in seconds. -/
def TRANSFER_PENALTY : ℤ := 30

/-- All index pairs `(t_first, t_second)` with `t_first < t_second` of a
list, in the iteration order of the nested loops of `process`. -/
def allPairs {α : Type} : List α → List (α × α)
  | [] => []
  | x :: xs => (xs.map fun y => (x, y)) ++ allPairs xs

/-- Python dict assignment `m[k] = v` on an association list: replace
the value in place when the key exists, else append the new pair. -/
def dictSet {κ ν : Type} [DecidableEq κ] (m : List (κ × ν)) (k : κ) (v : ν) :
    List (κ × ν) :=
  if m.any (fun kv => kv.1 = k) then
    m.map (fun kv => if kv.1 = k then (k, v) else kv)
  else m ++ [(k, v)]

/-- Python dict membership test `k in m` on an association list. -/
def dictMem {κ ν : Type} [DecidableEq κ] (m : List (κ × ν)) (k : κ) : Bool :=
  m.any (fun kv => kv.1 = k)

/-- Transfer time computed by `process`:
`TRANSFER_PENALTY + round(distance(center1, center2) / SPEED_ON_TRANSFER)`. -/
def transferTime (dist : Point → Point → ℚ) (a b : StopAreaT) : ℤ :=
  TRANSFER_PENALTY + pyRound (dist a.center b.center / SPEED_ON_TRANSFER)

/-- Body of the nested transfer loops of `process` for one index pair of
one transfer set: if both stop areas were exported, key the dictionary
by the two uids sorted ascending. -/
def addTransferPair (dist : Point → Point → ℚ) (stopsKeys : List ElId)
    (m : List ((ℕ × ℕ) × ℤ)) (p : StopAreaT × StopAreaT) : List ((ℕ × ℕ) × ℤ) :=
  if p.1.id ∈ stopsKeys ∧ p.2.id ∈ stopsKeys then
    dictSet m (min (uid p.1.id) (uid p.2.id), max (uid p.1.id) (uid p.2.id))
      (transferTime dist p.1 p.2)
  else m

/-- The `pairwise_transfers` dictionary built by `process`
(lines 298-314 of `processors/mapsme.py`). -/
def processTransfers (dist : Point → Point → ℚ) (stopsKeys : List ElId)
    (transfers : List (List StopAreaT)) : List ((ℕ × ℕ) × ℤ) :=
  transfers.foldl (fun m t => (allPairs t).foldl (addTransferPair dist stopsKeys) m) []

/-- The `MapsmeCache.provide_transfers` method: cached transfer triples
of the recovered cities, flattened in iteration order, are added to the
dictionary unless their ordered uid pair is already a key. -/
def provideTransfers (cached : List (ℕ × ℕ × ℤ)) (m : List ((ℕ × ℕ) × ℤ)) :
    List ((ℕ × ℕ) × ℤ) :=
  cached.foldl
    (fun m c => if dictMem m (c.1, c.2.1) then m else m ++ [((c.1, c.2.1), c.2.2)]) m

/-- Transfers of the export `result` of `process`: the pairwise
dictionary, merged with cached transfers, listed as triples. -/
def mapsmeTransfers (dist : Point → Point → ℚ) (stopsKeys : List ElId)
    (transfers : List (List StopAreaT)) (cached : List (ℕ × ℕ × ℤ)) :
    List ((ℕ × ℕ) × ℤ) :=
  provideTransfers cached (processTransfers dist stopsKeys transfers)

/-- Invariant of the pairwise-transfer dictionary: every key is a
strictly ascending uid pair, and keys are unique. -/
def TransferMapOK (m : List ((ℕ × ℕ) × ℤ)) : Prop :=
  (∀ e ∈ m, e.1.1 < e.1.2) ∧ (m.map Prod.fst).Nodup

theorem foldl_preserve {α β : Type} (P : β → Prop) (f : β → α → β)
    (l : List α) (b : β) (hb : P b) (hf : ∀ b a, a ∈ l → P b → P (f b a)) :
    P (l.foldl f b) := by
  induction l generalizing b with
  | nil => exact hb
  | cons x xs ih =>
    exact ih (f b x) (hf b x (List.mem_cons_self x xs) hb)
      (fun b a ha hP => hf b a (List.mem_cons_of_mem x ha) hP)

theorem dictSet_keys_sub {κ ν : Type} [DecidableEq κ] (m : List (κ × ν)) (k : κ) (v : ν) :
    ∀ e ∈ dictSet m k v, e ∈ m ∨ e = (k, v) := by
  intro e he
  unfold dictSet at he
  split_ifs at he with hmem
  · rw [List.mem_map] at he
    obtain ⟨kv, hkv, hkveq⟩ := he
    by_cases hk : kv.1 = k
    · right
      rw [← hkveq]
      simp [hk]
    · left
      rw [← hkveq]
      simpa [hk] using hkv
  · rcases List.mem_append.mp he with h | h
    · exact Or.inl h
    · exact Or.inr (by simpa using h)

theorem dictSet_preserves (m : List ((ℕ × ℕ) × ℤ)) (k : ℕ × ℕ) (v : ℤ)
    (hm : TransferMapOK m) (hk : k.1 < k.2) : TransferMapOK (dictSet m k v) := by
  constructor
  · intro e he
    rcases dictSet_keys_sub m k v e he with h | h
    · exact hm.1 e h
    · rw [h]
      exact hk
  · unfold dictSet
    split_ifs with hmem
    · have : (List.map Prod.fst (m.map (fun kv => if kv.1 = k then (k, v) else kv)))
          = m.map Prod.fst := by
        rw [List.map_map]
        apply List.map_congr_left
        intro kv _
        by_cases hkv : kv.1 = k
        · simp [hkv]
        · simp [hkv]
      rw [this]
      exact hm.2
    · rw [List.map_append]
      simp only [List.map_cons, List.map_nil]
      rw [List.nodup_append]
      refine ⟨hm.2, List.nodup_singleton k, ?_⟩
      intro a ha hb
      simp only [List.mem_singleton] at hb
      subst hb
      rw [List.mem_map] at ha
      obtain ⟨kv, hkv, hkveq⟩ := ha
      simp only [List.any_eq_true, decide_eq_true_eq] at hmem
      exact hmem ⟨kv, hkv, hkveq⟩

theorem allPairs_ne {α β : Type} [DecidableEq β] (f : α → β) :
    ∀ (t : List α), (t.map f).Nodup → ∀ p ∈ allPairs t, f p.1 ≠ f p.2 := by
  intro t
  induction t with
  | nil =>
    intro _ p hp
    simp [allPairs] at hp
  | cons x xs ih =>
    intro hnd p hp
    simp only [List.map_cons, List.nodup_cons] at hnd
    unfold allPairs at hp
    rcases List.mem_append.mp hp with h | h
    · rw [List.mem_map] at h
      obtain ⟨y, hy, hyeq⟩ := h
      rw [← hyeq]
      intro hcon
      exact hnd.1 (hcon ▸ List.mem_map_of_mem f hy)
    · exact ih hnd.2 p h

theorem processTransfers_ok (dist : Point → Point → ℚ) (stopsKeys : List ElId)
    (transfers : List (List StopAreaT))
    (hset : ∀ t ∈ transfers, (t.map StopAreaT.id).Nodup) :
    TransferMapOK (processTransfers dist stopsKeys transfers) := by
  unfold processTransfers
  apply foldl_preserve
  · exact ⟨by simp, by simp⟩
  · intro m t ht hm
    apply foldl_preserve
    · exact hm
    · intro m p hp hm
      unfold addTransferPair
      split_ifs with hin
      · apply dictSet_preserves _ _ _ hm
        have hne : p.1.id ≠ p.2.id := allPairs_ne StopAreaT.id t (hset t ht) p hp
        have : uid p.1.id ≠ uid p.2.id := fun h => hne (uid_injective h)
        simp only [min_def, max_def]
        split_ifs with h1 h2 h3 <;> omega
      · exact hm

theorem dictMem_eq_true_iff {κ ν : Type} [DecidableEq κ]
    (m : List (κ × ν)) (k : κ) : dictMem m k = true ↔ k ∈ m.map Prod.fst := by
  unfold dictMem
  rw [List.any_eq_true]
  constructor
  · rintro ⟨kv, hkv, heq⟩
    rw [decide_eq_true_eq] at heq
    rw [List.mem_map]
    exact ⟨kv, hkv, heq⟩
  · intro h
    rw [List.mem_map] at h
    obtain ⟨kv, hkv, heq⟩ := h
    exact ⟨kv, hkv, by rw [decide_eq_true_eq]; exact heq⟩

theorem provideTransfers_ok (cached : List (ℕ × ℕ × ℤ)) (m : List ((ℕ × ℕ) × ℤ))
    (hcache : ∀ c ∈ cached, c.1 < c.2.1) (hm : TransferMapOK m) :
    TransferMapOK (provideTransfers cached m) := by
  unfold provideTransfers
  apply foldl_preserve _ _ _ _ hm
  intro m c hc hm
  split_ifs with hmem
  · exact hm
  · constructor
    · intro e he
      rcases List.mem_append.mp he with h | h
      · exact hm.1 e h
      · simp only [List.mem_singleton] at h
        rw [h]
        exact hcache c hc
    · rw [List.map_append]
      simp only [List.map_cons, List.map_nil]
      rw [List.nodup_append]
      refine ⟨hm.2, List.nodup_singleton _, ?_⟩
      intro a ha hb
      simp only [List.mem_singleton] at hb
      subst hb
      exact hmem ((dictMem_eq_true_iff m (c.1, c.2.1)).mpr ha)

/-- C2: every transfer triple of the export has `uid1 < uid2`, and each
unordered uid pair occurs at most once, also after cached transfers of
adopted cities (whose cache entries the source writes sorted, per its
own cache format) are merged in.  The hypotheses state that each
transfer set holds distinct stop areas (guaranteed by `find_transfers`)
and that cached pairs are ascending (the cache-file format). -/
theorem C2_transfer_pairs_ordered_unique (dist : Point → Point → ℚ)
    (stopsKeys : List ElId) (transfers : List (List StopAreaT))
    (cached : List (ℕ × ℕ × ℤ))
    (hset : ∀ t ∈ transfers, (t.map StopAreaT.id).Nodup)
    (hcache : ∀ c ∈ cached, c.1 < c.2.1) :
    (∀ e ∈ mapsmeTransfers dist stopsKeys transfers cached, e.1.1 < e.1.2)
    ∧ (mapsmeTransfers dist stopsKeys transfers cached).Pairwise
        (fun e f => e.1 ≠ f.1 ∧ e.1 ≠ (f.1.2, f.1.1)) := by
  have hok : TransferMapOK (mapsmeTransfers dist stopsKeys transfers cached) :=
    provideTransfers_ok cached _ hcache
      (processTransfers_ok dist stopsKeys transfers hset)
  refine ⟨hok.1, ?_⟩
  have hpw : (mapsmeTransfers dist stopsKeys transfers cached).Pairwise
      (fun e f => e.1 ≠ f.1) := by
    have := hok.2
    rw [List.Nodup, List.pairwise_map] at this
    exact this
  apply List.Pairwise.imp_of_mem _ hpw
  intro e f he hf hne
  refine ⟨hne, ?_⟩
  intro hcon
  have h1 := hok.1 e he
  have h2 := hok.1 f hf
  rw [hcon] at h1
  simp only at h1
  omega

/-- C2 witness: a concrete run with one two-element transfer set and one
cached triple produces ascending, unrepeated pairs. -/
theorem C2_transfer_pairs_ordered_unique_witness :
    (∀ e ∈ mapsmeTransfers (fun _ _ => 0) [⟨OsmKind.node, 1⟩, ⟨OsmKind.node, 2⟩]
        [[⟨⟨OsmKind.node, 1⟩, ((0 : ℚ), (0 : ℚ))⟩, ⟨⟨OsmKind.node, 2⟩, ((0 : ℚ), (0 : ℚ))⟩]]
        [(1, 5, 40)], e.1.1 < e.1.2)
    ∧ (mapsmeTransfers (fun _ _ => 0) [⟨OsmKind.node, 1⟩, ⟨OsmKind.node, 2⟩]
        [[⟨⟨OsmKind.node, 1⟩, ((0 : ℚ), (0 : ℚ))⟩, ⟨⟨OsmKind.node, 2⟩, ((0 : ℚ), (0 : ℚ))⟩]]
        [(1, 5, 40)]).Pairwise (fun e f => e.1 ≠ f.1 ∧ e.1 ≠ (f.1.2, f.1.1)) :=
  C2_transfer_pairs_ordered_unique (fun _ _ => 0) _ _ _
    (by
      intro t ht
      simp only [List.mem_singleton] at ht
      subst ht
      decide)
    (by
      intro c hc
      simp only [List.mem_singleton] at hc
      subst hc
      decide)

/-! ### Itinerary distances (`Route.calculate_distances` and `process`) -/

/-- Constant `SPEED_ON_LINE` of `processors/mapsme.py`. -/
def SPEED_ON_LINE : ℚ := 40 * KMPH_TO_MPS

/-- Loop of `Route.calculate_distances` from the second stop on, with
the floating-point `distance` and `distance_on_line` of
`subway_structure.py` as parameters: the along-track distance is
preferred when it lies within `[direct - 10, 2 * direct]`, else the
direct distance; each stop stores the cumulative rounded sum. -/
def calcDistAux (dist : Point → Point → ℚ)
    (dLine : Point → Point → List Point → ℕ → Option (ℚ × ℕ))
    (tracks : List Point) : Point → ℕ → ℤ → List Point → List ℤ
  | _, _, _, [] => []
  | prev, vertex, acc, s :: rest =>
    let direct := dist s prev
    match dLine prev s tracks vertex with
    | some dv =>
      if direct - 10 ≤ dv.1 ∧ dv.1 ≤ direct * 2 then
        (acc + pyRound dv.1) ::
          calcDistAux dist dLine tracks s dv.2 (acc + pyRound dv.1) rest
      else
        (acc + pyRound direct) ::
          calcDistAux dist dLine tracks s vertex (acc + pyRound direct) rest
    | none =>
      (acc + pyRound direct) ::
        calcDistAux dist dLine tracks s vertex (acc + pyRound direct) rest

/-- The `Route.calculate_distances` method: the list of cumulative
along-route distances stored in `stop.distance`, one per stop. -/
def calculateDistances (dist : Point → Point → ℚ)
    (dLine : Point → Point → List Point → ℕ → Option (ℚ × ℕ))
    (tracks : List Point) : List Point → List ℤ
  | [] => []
  | s :: rest => 0 :: calcDistAux dist dLine tracks s 0 0 rest

/-- Per-stop cumulative seconds of an exported itinerary
(`round(stop.distance / SPEED_ON_LINE)` in `process`). -/
def itineraryTimes (ds : List ℤ) : List ℤ :=
  ds.map (fun d : ℤ => pyRound ((d : ℚ) / SPEED_ON_LINE))

theorem calcDistAux_chain (dist : Point → Point → ℚ)
    (dLine : Point → Point → List Point → ℕ → Option (ℚ × ℕ))
    (tracks : List Point)
    (hdist : ∀ p q, 0 ≤ dist p q)
    (hdl : ∀ p q tr v d v2, dLine p q tr v = some (d, v2) → 0 ≤ d) :
    ∀ (rest : List Point) (prev : Point) (vertex : ℕ) (acc : ℤ),
      List.Chain' (· ≤ ·) (acc :: calcDistAux dist dLine tracks prev vertex acc rest) := by
  intro rest
  induction rest with
  | nil =>
    intro prev vertex acc
    simp [calcDistAux]
  | cons s rest ih =>
    intro prev vertex acc
    have hdirect : 0 ≤ dist s prev := hdist s prev
    rcases hline : dLine prev s tracks vertex with _ | dv
    · have hstep : 0 ≤ pyRound (dist s prev) := pyRound_nonneg hdirect
      simp only [calcDistAux, hline]
      exact List.Chain'.cons (by omega) (ih s vertex (acc + pyRound (dist s prev)))
    · by_cases hc : dist s prev - 10 ≤ dv.1 ∧ dv.1 ≤ dist s prev * 2
      · have hd0 : 0 ≤ dv.1 := hdl prev s tracks vertex dv.1 dv.2 (by rwa [Prod.mk.eta])
        have hstep : 0 ≤ pyRound dv.1 := pyRound_nonneg hd0
        simp only [calcDistAux, hline, if_pos hc]
        exact List.Chain'.cons (by omega) (ih s dv.2 (acc + pyRound dv.1))
      · have hstep : 0 ≤ pyRound (dist s prev) := pyRound_nonneg hdirect
        simp only [calcDistAux, hline, if_neg hc]
        exact List.Chain'.cons (by omega) (ih s vertex (acc + pyRound (dist s prev)))

/-- C5: within any exported itinerary (distances computed by
`Route.calculate_distances`, times by `process`), the cumulative time
values are non-decreasing from the first stop to the last; the two
hypotheses record that the floating-point `distance` and
`distance_on_line` of the source return non-negative lengths. -/
theorem C5_itinerary_times_monotone (dist : Point → Point → ℚ)
    (dLine : Point → Point → List Point → ℕ → Option (ℚ × ℕ))
    (tracks : List Point) (stops : List Point)
    (hdist : ∀ p q, 0 ≤ dist p q)
    (hdl : ∀ p q tr v d v2, dLine p q tr v = some (d, v2) → 0 ≤ d) :
    List.Chain' (· ≤ ·) (itineraryTimes (calculateDistances dist dLine tracks stops)) := by
  have hspeed : (0 : ℚ) < SPEED_ON_LINE := by
    norm_num [SPEED_ON_LINE, KMPH_TO_MPS]
  have hchain : List.Chain' (· ≤ ·) (calculateDistances dist dLine tracks stops) := by
    cases stops with
    | nil => simp [calculateDistances]
    | cons s rest =>
      simp only [calculateDistances]
      exact calcDistAux_chain dist dLine tracks hdist hdl rest s 0 0
  unfold itineraryTimes
  refine (List.chain'_map (fun d : ℤ => pyRound ((d : ℚ) / SPEED_ON_LINE))).mpr
    (List.Chain'.imp ?_ hchain)
  intro a b hab
  apply pyRound_mono
  apply (div_le_div_iff_of_pos_right hspeed).mpr
  exact_mod_cast hab

/-- C5 witness: a concrete three-stop variant with constant direct
distance 100 m and no track projection yields non-decreasing times. -/
theorem C5_itinerary_times_monotone_witness :
    List.Chain' (· ≤ ·) (itineraryTimes (calculateDistances (fun _ _ => 100)
      (fun _ _ _ _ => none) []
      [((0 : ℚ), (0 : ℚ)), ((1 : ℚ), (0 : ℚ)), ((2 : ℚ), (0 : ℚ))])) :=
  C5_itinerary_times_monotone (fun _ _ => 100) (fun _ _ _ _ => none) [] _
    (fun _ _ => by norm_num)
    (fun p q tr v d v2 h => by cases h)

/-! ### Stop order on tracks (`Route.check_stops_order_on_tracks`) -/

/-- View of a `RouteStop` as consumed by the order checks: the stop
area it resolves to and its `positions_on_rails` list. -/
structure RouteStopP where
  stoparea : ElId
  positions : List ℚ
deriving DecidableEq

/-- The `is_circular` expression of `Route.__init__` (evaluated there
only for routes with at least two stops): the first and last
`RouteStop` resolve to the same stop area. -/
def routeIsCircular (stops : List RouteStopP) : Bool :=
  match stops.head?, stops.getLast? with
  | some a, some b => a.stoparea = b.stoparea
  | _, _ => false

/-- Walk of `Route.check_stops_order_on_tracks_direct`: for each stop,
take its first position on rails not smaller than the running maximum;
when none exists, either consume one allowed violation and restart from
the stop's last position, or report the stop.  An empty positions list
(impossible for projected stops) would raise IndexError in the source
in the tolerated branch; the model then takes 0. -/
def orderWalk : ℕ → ℚ → List RouteStopP → Option ElId
  | _, _, [] => none
  | allowed, maxPos, s :: rest =>
    match s.positions.dropWhile (fun p => decide (p < maxPos)) with
    | p :: _ => orderWalk allowed p rest
    | [] =>
      match allowed with
      | a + 1 => orderWalk a (s.positions.getLastD 0) rest
      | 0 => some s.stoparea

/-- The `check_stops_order_on_tracks_direct` method: the walk starts
with running maximum `-1` and tolerates one violation exactly when the
route is circular; the result is the offending stop, if any. -/
def checkStopsOrderOnTracksDirect (isCircular : Bool) (seq : List RouteStopP) :
    Option ElId :=
  orderWalk (if isCircular then 1 else 0) (-1) seq

/-- Number of order violations the walk meets when every violation is
tolerated: the same traversal as `orderWalk` with unlimited allowance,
counting the restarts. -/
def orderViolations : ℚ → List RouteStopP → ℕ
  | _, [] => 0
  | maxPos, s :: rest =>
    match s.positions.dropWhile (fun p => decide (p < maxPos)) with
    | p :: _ => orderViolations p rest
    | [] => orderViolations (s.positions.getLastD 0) rest + 1

theorem orderWalk_cons (allowed : ℕ) (maxPos : ℚ) (s : RouteStopP)
    (rest : List RouteStopP) :
    orderWalk allowed maxPos (s :: rest) =
      match s.positions.dropWhile (fun p => decide (p < maxPos)) with
      | p :: _ => orderWalk allowed p rest
      | [] =>
        match allowed with
        | a + 1 => orderWalk a (s.positions.getLastD 0) rest
        | 0 => some s.stoparea := rfl

theorem orderViolations_cons (maxPos : ℚ) (s : RouteStopP)
    (rest : List RouteStopP) :
    orderViolations maxPos (s :: rest) =
      match s.positions.dropWhile (fun p => decide (p < maxPos)) with
      | p :: _ => orderViolations p rest
      | [] => orderViolations (s.positions.getLastD 0) rest + 1 := rfl

theorem orderWalk_none_iff :
    ∀ (seq : List RouteStopP) (allowed : ℕ) (maxPos : ℚ),
      orderWalk allowed maxPos seq = none ↔ orderViolations maxPos seq ≤ allowed := by
  intro seq
  induction seq with
  | nil =>
    intro allowed maxPos
    simp [orderWalk, orderViolations]
  | cons s rest ih =>
    intro allowed maxPos
    rw [orderWalk_cons, orderViolations_cons]
    cases hdrop : s.positions.dropWhile (fun p => decide (p < maxPos)) with
    | cons p ps =>
      simp only
      exact ih allowed p
    | nil =>
      cases allowed with
      | zero => simp
      | succ a =>
        simp only
        rw [ih a (s.positions.getLastD 0)]
        exact Iff.symm Nat.succ_le_succ_iff

/-- Result of `Route.check_stops_order_on_tracks` on the route state:
the recorded order error (if any), whether the opposite-direction
warning was recorded, and the route's track polyline afterwards. -/
structure OrderCheckOutcome where
  errorMessage : Option ElId
  warnedOpposite : Bool
  tracks : List Point
deriving DecidableEq

/-- The `check_stops_order_on_tracks` method: try the direct order; on
failure retry with the reversed stop sequence, and when that passes,
drop the error and warn; the route's `tracks` field is not touched. -/
def checkStopsOrderOnTracks (isCircular : Bool) (tracks : List Point)
    (seq : List RouteStopP) : OrderCheckOutcome :=
  match checkStopsOrderOnTracksDirect isCircular seq with
  | none => ⟨none, false, tracks⟩
  | some e =>
    match checkStopsOrderOnTracksDirect isCircular seq.reverse with
    | none => ⟨none, true, tracks⟩
    | some _ => ⟨some e, false, tracks⟩

/-- C7: for a route with at least two stops, `is_circular` holds exactly
when the first and last stop resolve to the same stop area, and the
position-on-rails walk succeeds exactly when the number of order
violations met is at most one for circular routes and zero otherwise. -/
theorem C7_circular_flag_and_tolerance (stops seq : List RouteStopP)
    (a b : RouteStopP) (hlen : 2 ≤ stops.length)
    (ha : stops.head? = some a) (hb : stops.getLast? = some b) :
    (routeIsCircular stops = true ↔ a.stoparea = b.stoparea)
    ∧ (checkStopsOrderOnTracksDirect (routeIsCircular stops) seq = none ↔
        orderViolations (-1) seq ≤ (if routeIsCircular stops then 1 else 0))
    ∧ (checkStopsOrderOnTracksDirect true seq = none ↔ orderViolations (-1) seq ≤ 1)
    ∧ (checkStopsOrderOnTracksDirect false seq = none ↔ orderViolations (-1) seq = 0) := by
  refine ⟨?_, ?_, ?_, ?_⟩
  · rw [routeIsCircular, ha, hb]
    simp
  · rw [checkStopsOrderOnTracksDirect, orderWalk_none_iff]
  · rw [checkStopsOrderOnTracksDirect, orderWalk_none_iff]
    simp
  · rw [checkStopsOrderOnTracksDirect, orderWalk_none_iff]
    simp

/-- C7 witness: a concrete circular two-stop route, with a sequence
meeting exactly one violation that the circular walk tolerates. -/
theorem C7_circular_flag_and_tolerance_witness :
    (routeIsCircular [⟨⟨OsmKind.node, 1⟩, [0]⟩, ⟨⟨OsmKind.node, 1⟩, [1]⟩] = true ↔
      (⟨⟨OsmKind.node, 1⟩, [0]⟩ : RouteStopP).stoparea =
        (⟨⟨OsmKind.node, 1⟩, [1]⟩ : RouteStopP).stoparea)
    ∧ (checkStopsOrderOnTracksDirect
        (routeIsCircular [⟨⟨OsmKind.node, 1⟩, [0]⟩, ⟨⟨OsmKind.node, 1⟩, [1]⟩])
        [⟨⟨OsmKind.node, 2⟩, [1]⟩, ⟨⟨OsmKind.node, 3⟩, [0]⟩] = none ↔
        orderViolations (-1) [⟨⟨OsmKind.node, 2⟩, [1]⟩, ⟨⟨OsmKind.node, 3⟩, [0]⟩] ≤
          (if routeIsCircular [⟨⟨OsmKind.node, 1⟩, [0]⟩, ⟨⟨OsmKind.node, 1⟩, [1]⟩]
            then 1 else 0))
    ∧ (checkStopsOrderOnTracksDirect true
        [⟨⟨OsmKind.node, 2⟩, [1]⟩, ⟨⟨OsmKind.node, 3⟩, [0]⟩] = none ↔
        orderViolations (-1) [⟨⟨OsmKind.node, 2⟩, [1]⟩, ⟨⟨OsmKind.node, 3⟩, [0]⟩] ≤ 1)
    ∧ (checkStopsOrderOnTracksDirect false
        [⟨⟨OsmKind.node, 2⟩, [1]⟩, ⟨⟨OsmKind.node, 3⟩, [0]⟩] = none ↔
        orderViolations (-1) [⟨⟨OsmKind.node, 2⟩, [1]⟩, ⟨⟨OsmKind.node, 3⟩, [0]⟩] = 0) :=
  C7_circular_flag_and_tolerance
    [⟨⟨OsmKind.node, 1⟩, [0]⟩, ⟨⟨OsmKind.node, 1⟩, [1]⟩]
    [⟨⟨OsmKind.node, 2⟩, [1]⟩, ⟨⟨OsmKind.node, 3⟩, [0]⟩]
    ⟨⟨OsmKind.node, 1⟩, [0]⟩ ⟨⟨OsmKind.node, 1⟩, [1]⟩
    (by decide) (by decide) (by decide)

/-- C3 counterexample: a two-stop sequence whose forward walk fails and
whose reversed walk succeeds; the source records the opposite-direction
warning and no order error, but keeps the track polyline as built
instead of storing the reversed polyline claimed. -/
theorem C3_tracks_not_reversed_counterexample :
    (checkStopsOrderOnTracksDirect false
      [⟨⟨OsmKind.node, 1⟩, [1]⟩, ⟨⟨OsmKind.node, 2⟩, [0]⟩]).isSome = true
    ∧ checkStopsOrderOnTracksDirect false
      ([⟨⟨OsmKind.node, 1⟩, [1]⟩, ⟨⟨OsmKind.node, 2⟩, [0]⟩] : List RouteStopP).reverse = none
    ∧ checkStopsOrderOnTracks false
        [((0 : ℚ), (0 : ℚ)), ((1 : ℚ), (0 : ℚ))]
        [⟨⟨OsmKind.node, 1⟩, [1]⟩, ⟨⟨OsmKind.node, 2⟩, [0]⟩] =
      ⟨none, true, [((0 : ℚ), (0 : ℚ)), ((1 : ℚ), (0 : ℚ))]⟩
    ∧ ([((0 : ℚ), (0 : ℚ)), ((1 : ℚ), (0 : ℚ))] : List Point) ≠
        ([((0 : ℚ), (0 : ℚ)), ((1 : ℚ), (0 : ℚ))] : List Point).reverse := by
  refine ⟨by decide, by decide, by decide, by decide⟩

/-- C3 amended: when the forward position-on-rails walk fails and the
walk over the reversed stop sequence succeeds, the opposite-direction
warning is recorded and no order error is, and the route's stored track
polyline is left unchanged (not reversed); later distance computation
uses the original polyline. -/
theorem C3_opposite_direction_behaviour (isCircular : Bool)
    (tracks : List Point) (seq : List RouteStopP)
    (hfwd : checkStopsOrderOnTracksDirect isCircular seq ≠ none)
    (hrev : checkStopsOrderOnTracksDirect isCircular seq.reverse = none) :
    checkStopsOrderOnTracks isCircular tracks seq =
      ⟨none, true, tracks⟩ := by
  unfold checkStopsOrderOnTracks
  cases hf : checkStopsOrderOnTracksDirect isCircular seq with
  | none => exact absurd hf hfwd
  | some e =>
    rw [hrev]

/-- C3 amended witness: the counterexample input run through the
amended statement. -/
theorem C3_opposite_direction_behaviour_witness :
    checkStopsOrderOnTracks false [((0 : ℚ), (0 : ℚ)), ((1 : ℚ), (0 : ℚ))]
      [⟨⟨OsmKind.node, 1⟩, [1]⟩, ⟨⟨OsmKind.node, 2⟩, [0]⟩] =
      ⟨none, true, [((0 : ℚ), (0 : ℚ)), ((1 : ℚ), (0 : ℚ))]⟩ :=
  C3_opposite_direction_behaviour false
    [((0 : ℚ), (0 : ℚ)), ((1 : ℚ), (0 : ℚ))]
    [⟨⟨OsmKind.node, 1⟩, [1]⟩, ⟨⟨OsmKind.node, 2⟩, [0]⟩]
    (by decide) (by decide)

/-! ### OSM elements and station classification -/

/-- Member entry of a relation: kind, numeric ref and role string. -/
structure OsmMember where
  kind : OsmKind
  ref : ℕ
  role : String
deriving DecidableEq

/-- OSM element as consumed by the pipeline: an optional tag map (the
source distinguishes a missing map from an empty one), node
coordinates, a precomputed centre for ways and relations, and members
for relations. -/
structure Element where
  kind : OsmKind
  id : ℕ
  tags : Option (List (String × String))
  coords : Option Point
  center : Option Point
  members : List OsmMember
deriving DecidableEq

/-- Composite id of an element (`el_id`). -/
def Element.elId (e : Element) : ElId := ⟨e.kind, e.id⟩

/-- Tag lookup, as in `el.get('tags', \x7b\x7d).get(k)`. -/
def tagGet (e : Element) (k : String) : Option String :=
  (e.tags.getD []).lookup k

/-- Key-presence test `k in el['tags']`. -/
def hasTag (e : Element) (k : String) : Bool := (tagGet e k).isSome

/-- Presence of the tag map, as in `'tags' in el`. -/
def hasTags (e : Element) : Bool := e.tags.isSome

/-- The `el_center` helper of `subway_structure.py`: node coordinates
first, else the precomputed centre, else nothing. -/
def elCenter (e : Element) : Option Point :=
  match e.coords with
  | some p => some p
  | none => e.center

/-- Constant `ALL_MODES` (`MODES_RAPID` with `MODES_OVERGROUND`). -/
def ALL_MODES : List String :=
  ["subway", "light_rail", "monorail", "train",
   "tram", "bus", "trolleybus", "aerialway", "ferry"]

/-- Constant `CONSTRUCTION_KEYS` of `subway_structure.py`. -/
def CONSTRUCTION_KEYS : List String :=
  ["construction", "proposed", "construction:railway", "proposed:railway"]

/-- The `Station.get_modes` static method: the `station` tag value when
truthy, plus every mode tagged `yes` (as a set, queried only through
membership). -/
def getModes (e : Element) : List String :=
  (match tagGet e "station" with
   | some m => if m = "" then [] else [m]
   | none => []) ++ ALL_MODES.filter (fun m => tagGet e m = some "yes")

/-- The `Station.is_station` static method of `subway_structure.py`. -/
def isStation (e : Element) (modes : List String) : Bool :=
  if "tram" ∈ modes ∧ tagGet e "railway" = some "tram_stop" then true
  else if ¬(tagGet e "railway" = some "station" ∨ tagGet e "railway" = some "halt")
    then false
  else if CONSTRUCTION_KEYS.any (fun k => hasTag e k) then false
  else if "train" ∉ modes ∧ (getModes e).all (fun m => ¬(m ∈ modes)) then false
  else true

/-! ### Cache adoption for bad cities (`MapsmeCache`) -/

/-- Cached stop record fields consulted by
`MapsmeCache._is_cached_city_usable`. -/
structure CachedStop where
  osmType : OsmKind
  osmId : ℕ
  lon : ℚ
  lat : ℚ
deriving DecidableEq

/-- Cache entry for one city (`MapsmeCache.cache[city.name]`); the
usability check consults only the stops. -/
structure CacheEntry where
  stops : List CachedStop
deriving DecidableEq

/-- City state consulted by the cache: name, mode set, element store
and the error buffer (`City.is_good` is `errors == []`). -/
structure CityT where
  name : String
  modes : List String
  elements : List (ElId × Element)
  errors : List String
deriving DecidableEq

/-- Constant `DISPLACEMENT_TOLERANCE` of `subway_structure.py`, in
meters. -/
def DISPLACEMENT_TOLERANCE : ℚ := 300

/-- The `MapsmeCache._is_cached_city_usable` method: every cached stop's
station element must still exist, still classify as a station for the
city's modes, and not lie farther than the displacement tolerance from
the cached coordinates; `none` models the exception `distance` would
raise when the station element has no coordinates. -/
def isCachedCityUsable (dist : Point → Point → ℚ) (city : CityT) :
    List CachedStop → Option Bool
  | [] => some true
  | c :: rest =>
    match city.elements.lookup ⟨c.osmType, c.osmId⟩ with
    | none => some false
    | some el =>
      if ¬ isStation el city.modes then some false
      else
        match elCenter el with
        | none => none
        | some p =>
          if dist p (c.lon, c.lat) > DISPLACEMENT_TOLERANCE then some false
          else isCachedCityUsable dist city rest

/-- One iteration of `MapsmeCache.provide_stops_and_networks` for a
given city: the cached stops and network are adopted exactly when the
city is not good, the cache holds an entry for it, and the usability
check passes. -/
def cityAdopted (dist : Point → Point → ℚ) (city : CityT)
    (cache : List (String × CacheEntry)) : Option Bool :=
  if city.errors = [] then some false
  else
    match cache.lookup city.name with
    | none => some false
    | some entry => isCachedCityUsable dist city entry.stops

theorem isCachedCityUsable_some_true_iff (dist : Point → Point → ℚ)
    (city : CityT) :
    ∀ stops : List CachedStop,
      isCachedCityUsable dist city stops = some true ↔
      ∀ c ∈ stops, ∃ el, city.elements.lookup ⟨c.osmType, c.osmId⟩ = some el
        ∧ isStation el city.modes = true
        ∧ ∃ p, elCenter el = some p ∧ dist p (c.lon, c.lat) ≤ DISPLACEMENT_TOLERANCE := by
  intro stops
  induction stops with
  | nil => simp [isCachedCityUsable]
  | cons c rest ih =>
    rw [isCachedCityUsable]
    cases hlook : city.elements.lookup ⟨c.osmType, c.osmId⟩ with
    | none =>
      simp only
      constructor
      · intro hcon
        cases hcon
      · intro h
        obtain ⟨el, hel, _⟩ := h c (List.mem_cons_self c rest)
        rw [hlook] at hel
        cases hel
    | some el =>
      simp only
      by_cases hst : isStation el city.modes
      · rw [if_neg (by simpa using hst)]
        cases hcen : elCenter el with
        | none =>
          simp only
          constructor
          · intro hcon
            cases hcon
          · intro h
            obtain ⟨el2, hel2, _, p, hp, _⟩ := h c (List.mem_cons_self c rest)
            rw [hlook] at hel2
            cases hel2
            rw [hcen] at hp
            cases hp
        | some p =>
          simp only
          by_cases hd : dist p (c.lon, c.lat) > DISPLACEMENT_TOLERANCE
          · rw [if_pos hd]
            constructor
            · intro hcon
              cases hcon
            · intro h
              obtain ⟨el2, hel2, _, q, hq, hqd⟩ := h c (List.mem_cons_self c rest)
              rw [hlook] at hel2
              cases hel2
              rw [hcen] at hq
              cases hq
              exact absurd hqd (not_le.mpr hd)
          · rw [if_neg hd]
            rw [ih]
            constructor
            · intro h
              intro x hx
              rcases List.mem_cons.mp hx with hx | hx
              · subst hx
                exact ⟨el, hlook, by simpa using hst, p, hcen, le_of_not_lt hd⟩
              · exact h x hx
            · intro h x hx
              exact h x (List.mem_cons_of_mem c hx)
      · rw [if_pos (by simpa using hst)]
        constructor
        · intro hcon
          cases hcon
        · intro h
          obtain ⟨el2, hel2, hst2, _⟩ := h c (List.mem_cons_self c rest)
          rw [hlook] at hel2
          cases hel2
          exact (hst (by simpa using hst2)).elim

/-- C4 counterexample: with the displacement of the single cached stop
exactly equal to the tolerance (300 m), the source adopts the cached
city although the station has not moved strictly less than the
tolerance, so adoption is not equivalent to sub-tolerance displacement
as claimed. -/
def c4StationNode : Element :=
  ⟨OsmKind.node, 1, some [("railway", "station"), ("station", "subway")],
    some ((0 : ℚ), (0 : ℚ)), none, []⟩

/-- Concrete bad city used by the C4 counterexample and witness. -/
def c4City : CityT :=
  ⟨"Badtown", ["subway"], [(⟨OsmKind.node, 1⟩, c4StationNode)], ["some error"]⟩

/-- Concrete cache used by the C4 counterexample and witness. -/
def c4Cache : List (String × CacheEntry) :=
  [("Badtown", ⟨[⟨OsmKind.node, 1, 10, 10⟩]⟩)]

theorem C4_boundary_counterexample :
    cityAdopted (fun _ _ => DISPLACEMENT_TOLERANCE) c4City c4Cache = some true
    ∧ ¬((fun (_ _ : Point) => DISPLACEMENT_TOLERANCE) ((0 : ℚ), (0 : ℚ))
          ((10 : ℚ), (10 : ℚ)) < DISPLACEMENT_TOLERANCE) := by
  constructor
  · decide
  · decide

/-- C4 amended: for a city that is not good and has a cache entry, the
cached stops and network are adopted if and only if every cached stop's
referenced station element still exists, still classifies as a station
for the city's modes, and its current position has moved at most (not
strictly less than) the displacement tolerance from the cached one. -/
theorem C4_cache_adoption_iff (dist : Point → Point → ℚ) (city : CityT)
    (cache : List (String × CacheEntry)) (entry : CacheEntry)
    (hbad : city.errors ≠ []) (hent : cache.lookup city.name = some entry) :
    cityAdopted dist city cache = some true ↔
      ∀ c ∈ entry.stops, ∃ el, city.elements.lookup ⟨c.osmType, c.osmId⟩ = some el
        ∧ isStation el city.modes = true
        ∧ ∃ p, elCenter el = some p
            ∧ dist p (c.lon, c.lat) ≤ DISPLACEMENT_TOLERANCE := by
  unfold cityAdopted
  rw [if_neg hbad, hent]
  exact isCachedCityUsable_some_true_iff dist city entry.stops

/-- C4 amended witness: with zero displacement the concrete bad city is
adopted from the cache. -/
theorem C4_cache_adoption_iff_witness :
    cityAdopted (fun _ _ => 0) c4City c4Cache = some true :=
  (C4_cache_adoption_iff (fun _ _ => 0) c4City c4Cache ⟨[⟨OsmKind.node, 1, 10, 10⟩]⟩
      (by decide) (by decide)).mpr
    (by
      intro c hc
      simp only [List.mem_singleton] at hc
      subst hc
      exact ⟨c4StationNode, by decide, by decide,
        ((0 : ℚ), (0 : ℚ)), by decide, by norm_num [DISPLACEMENT_TOLERANCE]⟩)

/-! ### StopArea assembly (`StopArea.__init__`) -/

/-- Errors the `StopArea` constructor can record in the city's error
buffer.  Warnings and the centre computation record no errors and are
omitted. -/
inductive SAError
  | multipleStations
  | tracksInStopArea
  | onlyExits
  | noExits
deriving DecidableEq, Repr

/-- Constant `RAILWAY_TYPES` of `subway_structure.py`. -/
def RAILWAY_TYPES : List String :=
  ["rail", "light_rail", "subway", "narrow_gauge", "funicular", "monorail", "tram"]

/-- The `StopArea.is_stop` static method. -/
def isStopPos (e : Element) : Bool :=
  hasTags e ∧ (tagGet e "railway" = some "stop"
    ∨ tagGet e "public_transport" = some "stop_position")

/-- The `StopArea.is_platform` static method. -/
def isPlatform (e : Element) : Bool :=
  hasTags e ∧ (tagGet e "railway" = some "platform"
    ∨ tagGet e "railway" = some "platform_edge"
    ∨ tagGet e "public_transport" = some "platform")

/-- The `StopArea.is_track` static method. -/
def isTrack (e : Element) : Bool :=
  if e.kind = OsmKind.way ∧ hasTags e then
    match tagGet e "railway" with
    | some r => decide (r ∈ RAILWAY_TYPES)
    | none => false
  else false

/-- Mutable state of the `StopArea` constructor: the four element-id
sets, the recorded errors and the tracks-warned-once flag. -/
structure SAState where
  stops : List ElId
  platforms : List ElId
  entrances : List ElId
  exits : List ElId
  errors : List SAError
  warnedTracks : Bool
deriving DecidableEq, Repr

/-- Python `set.add`: sets are modelled as duplicate-free lists. -/
def setAdd (l : List ElId) (k : ElId) : List ElId :=
  if k ∈ l then l else l ++ [k]

/-- One member iteration of the stop-area branch of
`StopArea.__init__`: classify the member as station / stop position /
platform / subway entrance / track and file it accordingly. -/
def saMemberStep (modes : List String) (elements : List (ElId × Element))
    (stationId : ElId) (st : SAState) (m : OsmMember) : SAState :=
  let k : ElId := ⟨m.kind, m.ref⟩
  match elements.lookup k with
  | none => st
  | some mEl =>
    if hasTags mEl then
      if isStation mEl modes then
        if k ≠ stationId then {st with errors := st.errors ++ [SAError.multipleStations]}
        else st
      else if isStopPos mEl then {st with stops := setAdd st.stops k}
      else if isPlatform mEl then {st with platforms := setAdd st.platforms k}
      else if tagGet mEl "railway" = some "subway_entrance" then
        let st1 :=
          if tagGet mEl "entrance" ≠ some "exit" ∧ m.role ≠ "exit_only"
          then {st with entrances := setAdd st.entrances k} else st
        if tagGet mEl "entrance" ≠ some "entrance" ∧ m.role ≠ "entry_only"
        then {st1 with exits := setAdd st1.exits k} else st1
      else if isTrack mEl then
        if st.warnedTracks then st
        else {st with errors := st.errors ++ [SAError.tracksInStopArea], warnedTracks := true}
      else st
    else st

/-- Constant `MAX_DISTANCE_TO_ENTRANCES` of `subway_structure.py`, in
meters. -/
def MAX_DISTANCE_TO_ENTRANCES : ℚ := 300

/-- One element iteration of the no-stop-area branch of
`StopArea.__init__`: attach nearby subway-entrance elements that do not
already belong to some stop area. -/
def saFallbackStep (dist : Point → Point → ℚ) (stopAreaIds : List ElId)
    (stationCenter : Point) (st : SAState) (cEl : Element) : SAState :=
  if tagGet cEl "railway" = some "subway_entrance" then
    if cEl.elId ∉ stopAreaIds then
      match elCenter cEl with
      | none => st
      | some cCenter =>
        if dist stationCenter cCenter ≤ MAX_DISTANCE_TO_ENTRANCES then
          let etag := tagGet cEl "entrance"
          let st1 :=
            if etag ≠ some "exit"
            then {st with entrances := setAdd st.entrances cEl.elId} else st
          if etag ≠ some "entrance"
          then {st1 with exits := setAdd st1.exits cEl.elId} else st1
        else st
    else st
  else st

/-- Element-gathering loop of `StopArea.__init__`: the member loop when
a stop-area relation is present, else the nearby-entrance fallback over
the city's elements. -/
def saLoopResult (dist : Point → Point → ℚ) (modes : List String)
    (elements : List (ElId × Element)) (stopAreaIds : List ElId)
    (stationId : ElId) (stationCenter : Point) (stopArea : Option Element) :
    SAState :=
  match stopArea with
  | some sa => sa.members.foldl (saMemberStep modes elements stationId)
      ⟨[], [], [], [], [], false⟩
  | none => (elements.map Prod.snd).foldl
      (saFallbackStep dist stopAreaIds stationCenter) ⟨[], [], [], [], [], false⟩

/-- Final entrance-exit symmetry checks of `StopArea.__init__`: record
an error when only exits exist and when only entrances exist. -/
def saFinalize (st : SAState) : SAState :=
  let st1 :=
    if st.exits ≠ [] ∧ st.entrances = []
    then {st with errors := st.errors ++ [SAError.onlyExits]} else st
  if st1.entrances ≠ [] ∧ st1.exits = []
  then {st1 with errors := st1.errors ++ [SAError.noExits]} else st1

/-- The diagnostics-relevant part of `StopArea.__init__`: run the
gathering loop, then the symmetry checks.  `stationId` and
`stationCenter` are the owning `Station` identity and centre. -/
def stopAreaConstruct (dist : Point → Point → ℚ) (modes : List String)
    (elements : List (ElId × Element)) (stopAreaIds : List ElId)
    (stationId : ElId) (stationCenter : Point) (stopArea : Option Element) :
    SAState :=
  saFinalize (saLoopResult dist modes elements stopAreaIds stationId stationCenter stopArea)

theorem saMemberStep_no_sym_errors (modes : List String)
    (elements : List (ElId × Element)) (stationId : ElId)
    (st : SAState) (m : OsmMember)
    (h : SAError.onlyExits ∉ st.errors ∧ SAError.noExits ∉ st.errors) :
    SAError.onlyExits ∉ (saMemberStep modes elements stationId st m).errors
    ∧ SAError.noExits ∉ (saMemberStep modes elements stationId st m).errors := by
  cases hlook : elements.lookup ⟨m.kind, m.ref⟩ with
  | none => simpa [saMemberStep, hlook] using h
  | some mEl =>
    simp only [saMemberStep, hlook]
    split_ifs <;> simp_all

theorem saFallbackStep_no_sym_errors (dist : Point → Point → ℚ)
    (stopAreaIds : List ElId) (stationCenter : Point)
    (st : SAState) (cEl : Element)
    (h : SAError.onlyExits ∉ st.errors ∧ SAError.noExits ∉ st.errors) :
    SAError.onlyExits ∉ (saFallbackStep dist stopAreaIds stationCenter st cEl).errors
    ∧ SAError.noExits ∉ (saFallbackStep dist stopAreaIds stationCenter st cEl).errors := by
  cases hcen : elCenter cEl with
  | none =>
    simp only [saFallbackStep, hcen]
    split_ifs <;> simp_all
  | some cCenter =>
    simp only [saFallbackStep, hcen]
    split_ifs <;> simp_all

/-- C8 counterexample: a stop area holding a station and a track way
records a tracks-in-stop-area error while both the entrance set and the
exit set are empty, so an error is recorded without exactly one of the
two sets being non-empty. -/
def c8StationNode : Element :=
  ⟨OsmKind.node, 1, some [("railway", "station"), ("station", "subway")],
    some ((0 : ℚ), (0 : ℚ)), none, []⟩

/-- Concrete track way used by the C8 counterexample. -/
def c8TrackWay : Element :=
  ⟨OsmKind.way, 5, some [("railway", "subway")], none, none, []⟩

/-- Concrete stop-area relation used by the C8 counterexample. -/
def c8StopAreaRel : Element :=
  ⟨OsmKind.relation, 10, some [("public_transport", "stop_area")], none, none,
    [⟨OsmKind.node, 1, ""⟩, ⟨OsmKind.way, 5, ""⟩]⟩

theorem C8_error_iff_asymmetry_counterexample :
    (stopAreaConstruct (fun _ _ => 0) ["subway"]
        [(⟨OsmKind.node, 1⟩, c8StationNode), (⟨OsmKind.way, 5⟩, c8TrackWay)] []
        ⟨OsmKind.node, 1⟩ ((0 : ℚ), (0 : ℚ)) (some c8StopAreaRel)).errors ≠ []
    ∧ ¬(((stopAreaConstruct (fun _ _ => 0) ["subway"]
        [(⟨OsmKind.node, 1⟩, c8StationNode), (⟨OsmKind.way, 5⟩, c8TrackWay)] []
        ⟨OsmKind.node, 1⟩ ((0 : ℚ), (0 : ℚ)) (some c8StopAreaRel)).entrances = []
        ∧ (stopAreaConstruct (fun _ _ => 0) ["subway"]
        [(⟨OsmKind.node, 1⟩, c8StationNode), (⟨OsmKind.way, 5⟩, c8TrackWay)] []
        ⟨OsmKind.node, 1⟩ ((0 : ℚ), (0 : ℚ)) (some c8StopAreaRel)).exits ≠ [])
      ∨ ((stopAreaConstruct (fun _ _ => 0) ["subway"]
        [(⟨OsmKind.node, 1⟩, c8StationNode), (⟨OsmKind.way, 5⟩, c8TrackWay)] []
        ⟨OsmKind.node, 1⟩ ((0 : ℚ), (0 : ℚ)) (some c8StopAreaRel)).entrances ≠ []
        ∧ (stopAreaConstruct (fun _ _ => 0) ["subway"]
        [(⟨OsmKind.node, 1⟩, c8StationNode), (⟨OsmKind.way, 5⟩, c8TrackWay)] []
        ⟨OsmKind.node, 1⟩ ((0 : ℚ), (0 : ℚ)) (some c8StopAreaRel)).exits = [])) := by
  constructor
  · decide
  · decide

/-- C8 amended: an entrance-exit symmetry error is recorded by the
`StopArea` constructor if and only if exactly one of the entrance set
and the exit set is non-empty (other constructor checks may record
other errors); consequently, when the constructor records no error at
all, the entrance set is non-empty exactly when the exit set is. -/
theorem C8_entrance_exit_symmetry (dist : Point → Point → ℚ)
    (modes : List String) (elements : List (ElId × Element))
    (stopAreaIds : List ElId) (stationId : ElId) (stationCenter : Point)
    (stopArea : Option Element) :
    ((SAError.onlyExits ∈ (stopAreaConstruct dist modes elements stopAreaIds
          stationId stationCenter stopArea).errors
      ∨ SAError.noExits ∈ (stopAreaConstruct dist modes elements stopAreaIds
          stationId stationCenter stopArea).errors) ↔
      (((stopAreaConstruct dist modes elements stopAreaIds
          stationId stationCenter stopArea).entrances = []
        ∧ (stopAreaConstruct dist modes elements stopAreaIds
          stationId stationCenter stopArea).exits ≠ [])
      ∨ ((stopAreaConstruct dist modes elements stopAreaIds
          stationId stationCenter stopArea).entrances ≠ []
        ∧ (stopAreaConstruct dist modes elements stopAreaIds
          stationId stationCenter stopArea).exits = [])))
    ∧ ((stopAreaConstruct dist modes elements stopAreaIds
          stationId stationCenter stopArea).errors = [] →
        ((stopAreaConstruct dist modes elements stopAreaIds
          stationId stationCenter stopArea).entrances ≠ [] ↔
         (stopAreaConstruct dist modes elements stopAreaIds
          stationId stationCenter stopArea).exits ≠ [])) := by
  have hloop : SAError.onlyExits ∉ (saLoopResult dist modes elements stopAreaIds
        stationId stationCenter stopArea).errors
      ∧ SAError.noExits ∉ (saLoopResult dist modes elements stopAreaIds
        stationId stationCenter stopArea).errors := by
    cases stopArea with
    | some sa =>
      exact foldl_preserve
        (fun s => SAError.onlyExits ∉ s.errors ∧ SAError.noExits ∉ s.errors)
        (saMemberStep modes elements stationId) sa.members
        ⟨[], [], [], [], [], false⟩ (by simp)
        (fun s m _ hs => saMemberStep_no_sym_errors modes elements stationId s m hs)
    | none =>
      exact foldl_preserve
        (fun s => SAError.onlyExits ∉ s.errors ∧ SAError.noExits ∉ s.errors)
        (saFallbackStep dist stopAreaIds stationCenter) (elements.map Prod.snd)
        ⟨[], [], [], [], [], false⟩ (by simp)
        (fun s c _ hs => saFallbackStep_no_sym_errors dist stopAreaIds stationCenter s c hs)
  have main : ∀ st : SAState,
      SAError.onlyExits ∉ st.errors → SAError.noExits ∉ st.errors →
      ((SAError.onlyExits ∈ (saFinalize st).errors
          ∨ SAError.noExits ∈ (saFinalize st).errors) ↔
        (((saFinalize st).entrances = [] ∧ (saFinalize st).exits ≠ [])
          ∨ ((saFinalize st).entrances ≠ [] ∧ (saFinalize st).exits = [])))
      ∧ ((saFinalize st).errors = [] →
          ((saFinalize st).entrances ≠ [] ↔ (saFinalize st).exits ≠ [])) := by
    intro st honly hno
    by_cases h1 : st.exits ≠ [] ∧ st.entrances = []
    · have hfin : saFinalize st = {st with errors := st.errors ++ [SAError.onlyExits]} := by
        unfold saFinalize
        rw [if_pos h1]
        rw [if_neg (by simp only; intro hcon; exact hcon.1 h1.2)]
      rw [hfin]
      constructor
      · simp only
        constructor
        · intro _
          left
          exact ⟨h1.2, h1.1⟩
        · intro _
          left
          simp
      · simp only
        intro habs
        exfalso
        have hmem : SAError.onlyExits ∈ st.errors ++ [SAError.onlyExits] := by simp
        rw [habs] at hmem
        cases hmem
    · by_cases h2 : st.entrances ≠ [] ∧ st.exits = []
      · have hfin : saFinalize st = {st with errors := st.errors ++ [SAError.noExits]} := by
          unfold saFinalize
          rw [if_neg h1, if_pos h2]
        rw [hfin]
        constructor
        · simp only
          constructor
          · intro _
            right
            exact ⟨h2.1, h2.2⟩
          · intro _
            right
            simp
        · simp only
          intro habs
          exfalso
          have hmem : SAError.noExits ∈ st.errors ++ [SAError.noExits] := by simp
          rw [habs] at hmem
          cases hmem
      · have hfin : saFinalize st = st := by
          unfold saFinalize
          rw [if_neg h1, if_neg h2]
        rw [hfin]
        constructor
        · constructor
          · intro hcon
            rcases hcon with hcon | hcon
            · exact absurd hcon honly
            · exact absurd hcon hno
          · intro hcon
            rcases hcon with ⟨hce, hcx⟩ | ⟨hce, hcx⟩
            · exact absurd ⟨hcx, hce⟩ h1
            · exact absurd ⟨hce, hcx⟩ h2
        · intro _
          constructor
          · intro he
            by_contra hx
            exact h2 ⟨he, hx⟩
          · intro hx
            by_contra he
            exact h1 ⟨hx, he⟩
  exact main (saLoopResult dist modes elements stopAreaIds stationId stationCenter stopArea)
    hloop.1 hloop.2

/-- C8 amended witness: a stop area holding one two-way subway entrance
records no error, and the symmetry equivalence holds there with both
sets non-empty. -/
def c8EntranceNode : Element :=
  ⟨OsmKind.node, 7, some [("railway", "subway_entrance")],
    some ((0 : ℚ), (0 : ℚ)), none, []⟩

/-- Concrete stop-area relation with a station and an entrance, used by
the C8 witness. -/
def c8StopAreaRelGood : Element :=
  ⟨OsmKind.relation, 11, some [("public_transport", "stop_area")], none, none,
    [⟨OsmKind.node, 1, ""⟩, ⟨OsmKind.node, 7, ""⟩]⟩

theorem C8_entrance_exit_symmetry_witness :
    (stopAreaConstruct (fun _ _ => 0) ["subway"]
        [(⟨OsmKind.node, 1⟩, c8StationNode), (⟨OsmKind.node, 7⟩, c8EntranceNode)] []
        ⟨OsmKind.node, 1⟩ ((0 : ℚ), (0 : ℚ)) (some c8StopAreaRelGood)).entrances ≠ [] ↔
    (stopAreaConstruct (fun _ _ => 0) ["subway"]
        [(⟨OsmKind.node, 1⟩, c8StationNode), (⟨OsmKind.node, 7⟩, c8EntranceNode)] []
        ⟨OsmKind.node, 1⟩ ((0 : ℚ), (0 : ℚ)) (some c8StopAreaRelGood)).exits ≠ [] :=
  (C8_entrance_exit_symmetry (fun _ _ => 0) ["subway"]
      [(⟨OsmKind.node, 1⟩, c8StationNode), (⟨OsmKind.node, 7⟩, c8EntranceNode)] []
      ⟨OsmKind.node, 1⟩ ((0 : ℚ), (0 : ℚ)) (some c8StopAreaRelGood)).2 (by decide)

/-! ### Stop order recovery (`Route.try_resort_stops`) -/

/-- Python truthiness of an optional string: present and non-empty. -/
def pyTruthy : Option String → Bool
  | none => false
  | some s => s ≠ ""

/-- Station entry of a recovery-file itinerary. -/
structure RecStation where
  name : String
  center : Point
deriving DecidableEq

/-- Recovery-file itinerary: the station list and the from/to tags. -/
structure RecItinerary where
  stations : List RecStation
  fromTag : Option String
  toTag : Option String
deriving DecidableEq

/-- A `RouteStop` as consumed by `try_resort_stops`: the owning
station's name, international name and centre. -/
structure RouteStopR where
  stoparea : ElId
  stationName : String
  stationIntName : Option String
  stationCenter : Point
deriving DecidableEq

instance : Inhabited RouteStopR :=
  ⟨⟨⟨OsmKind.node, 0⟩, "", none, ((0 : ℚ), (0 : ℚ))⟩⟩

/-- Station display name used as dictionary key by `try_resort_stops`:
the name, or the international name when the name is the question-mark
placeholder and the international name is truthy. -/
def computedName (s : RouteStopR) : String :=
  if s.stationName = "?" ∧ pyTruthy s.stationIntName
  then s.stationIntName.getD "" else s.stationName

/-- First phase of `try_resort_stops`: build the name-to-stop mapping,
returning `none` on a repeated station name. -/
def buildSelfStops : List RouteStopR → List (String × RouteStopR) →
    Option (List (String × RouteStopR))
  | [], acc => some acc
  | s :: rest, acc =>
    if dictMem acc (computedName s) then none
    else buildSelfStops rest (acc ++ [(computedName s, s)])

/-- Remaining phases of `try_resort_stops` once the name map is built:
look the route up by `(colour, ref)`, keep itineraries whose station
name multiset matches and whose per-station displacement is within
tolerance, disambiguate by the from/to tags when several remain, and
reorder the stops on success. -/
def resortWithSelfStops (dist : Point → Point → ℚ)
    (recoveryData : List ((Option String × Option String) × List RecItinerary))
    (routeId : Option String × Option String) (fromTag toTag : Option String)
    (stops : List RouteStopR) (selfStops : List (String × RouteStopR)) :
    Bool × List RouteStopR :=
  match recoveryData.lookup routeId with
  | none => (false, stops)
  | some itineraries =>
    let suitable := itineraries.filter (fun itin =>
      decide (List.Perm (selfStops.map Prod.fst) (itin.stations.map RecStation.name))
      && itin.stations.all (fun itSt =>
          match selfStops.lookup itSt.name with
          | some selfStop =>
            decide (dist itSt.center selfStop.stationCenter ≤ DISPLACEMENT_TOLERANCE)
          | none => false))
    match suitable with
    | [] => (false, stops)
    | [itin] =>
      (true, itin.stations.map (fun st => (selfStops.lookup st.name).getD default))
    | _ :: _ :: _ =>
      if ¬ pyTruthy fromTag ∧ ¬ pyTruthy toTag then (false, stops)
      else
        match suitable.filter (fun itin =>
          (pyTruthy fromTag ∧ itin.fromTag = fromTag)
          ∨ (pyTruthy toTag ∧ itin.toTag = toTag)) with
        | [itin] =>
          (true, itin.stations.map (fun st => (selfStops.lookup st.name).getD default))
        | _ => (false, stops)

/-- The `Route.try_resort_stops` method: success flag and the stop list
afterwards (reordered on success, untouched on failure). -/
def tryResortStops (dist : Point → Point → ℚ)
    (recoveryData : List ((Option String × Option String) × List RecItinerary))
    (routeId : Option String × Option String) (fromTag toTag : Option String)
    (stops : List RouteStopR) : Bool × List RouteStopR :=
  match buildSelfStops stops [] with
  | none => (false, stops)
  | some selfStops =>
    resortWithSelfStops dist recoveryData routeId fromTag toTag stops selfStops

theorem buildSelfStops_none_iff :
    ∀ (stops : List RouteStopR) (acc : List (String × RouteStopR)),
      (acc.map Prod.fst).Nodup →
      (buildSelfStops stops acc = none ↔
        ¬ (acc.map Prod.fst ++ stops.map computedName).Nodup) := by
  intro stops
  induction stops with
  | nil =>
    intro acc hacc
    simp [buildSelfStops, hacc]
  | cons s rest ih =>
    intro acc hacc
    rw [buildSelfStops]
    by_cases hmem : dictMem acc (computedName s) = true
    · rw [if_pos hmem]
      have hin : computedName s ∈ acc.map Prod.fst :=
        (dictMem_eq_true_iff acc (computedName s)).mp hmem
      simp only [true_iff]
      intro hnd
      rw [List.map_cons, List.nodup_append] at hnd
      exact hnd.2.2 hin (List.mem_cons_self _ _)
    · rw [if_neg hmem]
      have hnotin : computedName s ∉ acc.map Prod.fst := by
        intro hcon
        exact hmem ((dictMem_eq_true_iff acc (computedName s)).mpr hcon)
      have hacc2 : ((acc ++ [(computedName s, s)]).map Prod.fst).Nodup := by
        rw [List.map_append]
        simp only [List.map_cons, List.map_nil]
        rw [List.nodup_append]
        refine ⟨hacc, List.nodup_singleton _, ?_⟩
        intro a ha hb
        simp only [List.mem_singleton] at hb
        subst hb
        exact hnotin ha
      rw [ih (acc ++ [(computedName s, s)]) hacc2]
      have heq : (acc ++ [(computedName s, s)]).map Prod.fst
          ++ rest.map computedName
          = acc.map Prod.fst ++ (s :: rest).map computedName := by
        rw [List.map_append, List.map_cons]
        simp
      rw [heq]

/-- C10: whenever two stops of the variant resolve to the same station
display name, `try_resort_stops` returns failure and leaves the stop
list untouched, regardless of the recovery data, the route key or the
from/to tags. -/
theorem C10_duplicate_names_block_recovery (dist : Point → Point → ℚ)
    (recoveryData : List ((Option String × Option String) × List RecItinerary))
    (routeId : Option String × Option String) (fromTag toTag : Option String)
    (stops : List RouteStopR)
    (hdup : ¬ (stops.map computedName).Nodup) :
    tryResortStops dist recoveryData routeId fromTag toTag stops = (false, stops) := by
  have hnone : buildSelfStops stops [] = none := by
    rw [buildSelfStops_none_iff stops [] (by simp)]
    simpa using hdup
  unfold tryResortStops
  rw [hnone]

/-- C10 witness: two stops named alike make recovery fail and keep the
stop list, even though the recovery data holds a matching itinerary. -/
theorem C10_duplicate_names_block_recovery_witness :
    tryResortStops (fun _ _ => 0)
      [((some "red", some "1"),
        [⟨[⟨"A", ((0 : ℚ), (0 : ℚ))⟩, ⟨"A", ((1 : ℚ), (1 : ℚ))⟩], some "A", some "A"⟩])]
      (some "red", some "1") (some "A") (some "A")
      [⟨⟨OsmKind.node, 1⟩, "A", none, ((0 : ℚ), (0 : ℚ))⟩,
       ⟨⟨OsmKind.node, 2⟩, "A", none, ((1 : ℚ), (1 : ℚ))⟩] =
      (false,
        [⟨⟨OsmKind.node, 1⟩, "A", none, ((0 : ℚ), (0 : ℚ))⟩,
         ⟨⟨OsmKind.node, 2⟩, "A", none, ((1 : ℚ), (1 : ℚ))⟩]) :=
  C10_duplicate_names_block_recovery (fun _ _ => 0)
    [((some "red", some "1"),
      [⟨[⟨"A", ((0 : ℚ), (0 : ℚ))⟩, ⟨"A", ((1 : ℚ), (1 : ℚ))⟩], some "A", some "A"⟩])]
    (some "red", some "1") (some "A") (some "A")
    [⟨⟨OsmKind.node, 1⟩, "A", none, ((0 : ℚ), (0 : ℚ))⟩,
     ⟨⟨OsmKind.node, 2⟩, "A", none, ((1 : ℚ), (1 : ℚ))⟩]
    (by decide)

/-- C9: a route's exported `route_id` is `uid(route.id, 'r')`, which is
the relation's numeric id shifted left one bit only, without the 2-bit
type tag; consequently relation id `4*k` collides with the uid of the
node-based stop area of node id `k`. -/
theorem C9_route_id_no_type_tag_collision :
    (∀ n : ℕ, uidTyped ⟨OsmKind.relation, n⟩ OsmKind.relation = some (n <<< 1))
    ∧ (∀ k : ℕ,
        uidTyped ⟨OsmKind.relation, 4 * k⟩ OsmKind.relation = some (uid ⟨OsmKind.node, k⟩)) := by
  constructor
  · intro n
    simp [uidTyped]
  · intro k
    simp [uidTyped, uid, OsmKind.tag, Nat.shiftLeft_eq]
    ring

end Subways
